import Mathlib

/-!
Shallow embedding of the ng2-cache `CacheService`
(src/services/cache.service.ts) and of the backend-selection logic it
performs at construction time.

The backend (`CacheStorageAbstract`) is a synchronous key/value store; we
model its contents as a function `String → Option StorageValue`.  The
service reads the clock (`Date.now()`) inside `set` (via
`_toStorageOptions`) and inside `get` (via `_validateStorageValue`); we
pass the current time `now` explicitly to those operations.

JavaScript values flowing through the cache are modelled by `Val`: the
opaque user payloads we need (null, booleans, naturals, strings) plus the
tag-index object that the service itself persists under its reserved key.
JS truthiness (`!!v`, `options.expires ? ... : ...`) is modelled by
`Val.truthy`, `truthyNum`, `truthyStr`.
-/

namespace Ng2Cache

/-- A JavaScript value stored in or returned by the cache: `null`,
booleans, numbers (modelled as `Nat`; the timestamps the service computes
are non-negative), strings, and the tag-index object
(tag name to ordered list of namespaced keys, in property-insertion
order, which is what `for...in` iterates for string-keyed objects). -/
inductive Val where
  | null : Val
  | bool : Bool → Val
  | num : Nat → Val
  | str : String → Val
  | tags : List (String × List String) → Val
deriving DecidableEq, Repr

/-- JS truthiness of a `Val`: `null`, `false`, `0` and `""` are falsy;
objects (in particular the tag index, even when empty) are truthy. -/
def Val.truthy : Val → Bool
  | .null => false
  | .bool b => b
  | .num n => n != 0
  | .str s => s != ""
  | .tags _ => true

/-- Reading the tag index out of the value returned by
`this.get(this._tagsStorageKey()) || ...`: a stored tag object yields its
entries; `null` (absent index) and primitive non-object values yield no
entries (`for...in` over them iterates nothing, property reads give
`undefined`).  Theorems about the index carry the hypothesis that the
stored index value is `Val.tags`-shaped — the only shape the service
itself ever writes there. -/
def tagsOf : Val → List (String × List String)
  | .tags m => m
  | _ => []

/-- `CacheOptionsInterface`: all fields optional. -/
structure CacheOptions where
  expires : Option Nat := none
  maxAge : Option Nat := none
  tag : Option String := none
deriving DecidableEq, Repr

/-- The options part of a stored entry: after `_toStorageOptions` both
fields are always numbers. -/
structure StorageOptions where
  expires : Nat
  maxAge : Nat
deriving DecidableEq, Repr

/-- `StorageValueInterface`: what the service writes into the backend. -/
structure StorageValue where
  value : Val
  options : StorageOptions
deriving DecidableEq, Repr

/-- JS truthiness of an optional numeric field (`undefined` and `0` are
falsy). -/
def truthyNum : Option Nat → Bool
  | some n => n != 0
  | none => false

/-- JS truthiness of an optional string field (`undefined` and `""` are
falsy). -/
def truthyStr : Option String → Bool
  | some s => s != ""
  | none => false

/-- The backend contents: a synchronous key/value store. -/
def Store : Type := String → Option StorageValue

/-- Backend `getItem`. -/
def Store.getItem (s : Store) (key : String) : Option StorageValue := s key

/-- Backend `setItem`. -/
def Store.setItem (s : Store) (key : String) (v : StorageValue) : Store :=
  fun k => if k = key then some v else s k

/-- Backend `removeItem`. -/
def Store.removeItem (s : Store) (key : String) : Store :=
  fun k => if k = key then none else s k

/-- Backend `clear`. -/
def Store.clear (_ : Store) : Store := fun _ => none

/-- A backend with nothing stored. -/
def emptyStore : Store := fun _ => none

/-- `CACHE_PREFIX`: the fixed namespace prepended to every caller key. -/
def CACHE_PREFIX : String := "CacheService"

/-- `Number.MAX_VALUE`, the never-expiring sentinel used by the default
options; exactly `(2^53 - 1) * 2^971 = 2^1024 - 2^971`, written out as a
numeral so that kernel arithmetic on it is immediate (see
`maxValue_eq_pow` below). -/
def maxValue : Nat := 179769313486231570814527423731704356798070567525844996598917476803157260780028538760589558632766878171540458953514382464234321326889464182768467546703537516986049910576551282076245490090389328944075868508455133942304583236903222948165808559332123348274797826204144723168738177180919299881250404026184124858368

/-- `_defaultOptions`: `expires` and `maxAge` both `Number.MAX_VALUE`,
no tag. -/
def defaultOptions : CacheOptions :=
  { expires := some maxValue, maxAge := some maxValue, tag := none }

/-- `_toStorageKey`. -/
def _toStorageKey (key : String) : String := CACHE_PREFIX ++ key

/-- `_tagsStorageKey()`: the reserved tag-index key (a caller-level key;
the index physically lives under `_toStorageKey` of it). -/
def _tagsStorageKey : String := "CacheService_tags"

/-- The physical backend key of the tag index,
`_toStorageKey _tagsStorageKey`. -/
def nsTagsKey : String := _toStorageKey _tagsStorageKey

/-- `String.prototype.replace` with a string pattern replaces only the
first occurrence; this is that on character lists, with empty
replacement. -/
def replaceFirstAux (pat : List Char) : List Char → List Char
  | [] => []
  | c :: cs =>
    if (c :: cs).take pat.length = pat then (c :: cs).drop pat.length
    else c :: replaceFirstAux pat cs

/-- `_fromStorageKey`: `key.replace(CACHE_PREFIX, '')`. -/
def _fromStorageKey (key : String) : String :=
  String.mk (replaceFirstAux CACHE_PREFIX.toList key.toList)

/-- `_toStorageOptions`: resolve the stored expiration by JS truthiness:
a truthy `expires` wins verbatim, else a truthy `maxAge` gives
`now + maxAge * 1000`, else the `Number.MAX_VALUE` default; `maxAge` is
stored back likewise. -/
def _toStorageOptions (now : Nat) (options : CacheOptions) : StorageOptions :=
  { expires :=
      if truthyNum options.expires then options.expires.getD 0
      else if truthyNum options.maxAge then now + options.maxAge.getD 0 * 1000
      else maxValue
  , maxAge := if truthyNum options.maxAge then options.maxAge.getD 0 else maxValue }

/-- `_toStorageValue`. -/
def _toStorageValue (now : Nat) (value : Val) (options : CacheOptions) : StorageValue :=
  { value := value, options := _toStorageOptions now options }

/-- `_validateStorageValue`: `value.options.expires > Date.now()`. -/
def _validateStorageValue (now : Nat) (v : StorageValue) : Bool :=
  decide (v.options.expires > now)

/-- `_isSystemKey`: `[this._tagsStorageKey()].indexOf(key) !== -1`. -/
def _isSystemKey (key : String) : Bool := key == _tagsStorageKey

/-- The service's own read of the tag index, `this.get(this._tagsStorageKey())`,
with its lazy-removal side effect unfolded once: when the stored index
entry is expired the nested `remove` deletes it, and the tag scan inside
that `remove` then reads an already-removed index (empty) and writes
nothing, so the net effect is the single `removeItem`.  The lemma
`get_at_tagsStorageKey` below proves this agrees with the general `get`. -/
def getTags (s : Store) (now : Nat) : Val × Store :=
  match s.getItem nsTagsKey with
  | none => (Val.null, s)
  | some sv =>
    if _validateStorageValue now sv then (sv.value, s)
    else (Val.null, s.removeItem nsTagsKey)

/-- Stored options produced from `_defaultOptions` (both fields truthy,
so independent of the clock). -/
def defaultStorageOptions : StorageOptions := { expires := maxValue, maxAge := maxValue }

/-- The recursive `this.set(this._tagsStorageKey(), tags)` performed by
`_saveTag` / `_removeFromTag` / `removeTag`: it passes no options, and the
reserved key is a system key, so it reduces to a plain `setItem` of the
index with the default never-expiring options.  The lemma
`set_at_tagsStorageKey_plain` below proves this agrees with the general
`set`. -/
def setTagsPlain (s : Store) (m : List (String × List String)) : Store :=
  s.setItem nsTagsKey { value := Val.tags m, options := defaultStorageOptions }

/-- `tags[tag].splice(index, 1)` at `indexOf`: drop the first occurrence. -/
def removeFirstOcc : List String → String → List String
  | [], _ => []
  | x :: xs, k => if x = k then xs else x :: removeFirstOcc xs k

/-- The `for (let tag in tags)` scan of `_removeFromTag`: find the first
tag whose list contains the key, remove that single occurrence, stop
(`break`); `none` when no tag list contains the key. -/
def scavenge : List (String × List String) → String → Option (List (String × List String))
  | [], _ => none
  | (t, ks) :: rest, k =>
    if ks.contains k then some ((t, removeFirstOcc ks k) :: rest)
    else
      match scavenge rest k with
      | none => none
      | some rest2 => some ((t, ks) :: rest2)

/-- `_saveTag`'s index update: push onto an existing tag list, or create
the tag list (appended as a new property, hence at the end) if absent. -/
def addToTag : List (String × List String) → String → String → List (String × List String)
  | [], tag, key => [(tag, [key])]
  | (t, ks) :: rest, tag, key =>
    if t = tag then (t, ks ++ [key]) :: rest
    else (t, ks) :: addToTag rest tag key

/-- `delete tags[tag]`. -/
def eraseTag : List (String × List String) → String → List (String × List String)
  | [], _ => []
  | (t, ks) :: rest, tag => if t = tag then rest else (t, ks) :: eraseTag rest tag

/-- `tags[tag]` property lookup (arrays are truthy even when empty, so the
source's `if (tags[tag])` tests exactly presence). -/
def lookupTag : List (String × List String) → String → Option (List String)
  | [], _ => none
  | (t, ks) :: rest, tag => if t = tag then some ks else lookupTag rest tag

/-- `_removeFromTag`. -/
def _removeFromTag (s : Store) (now : Nat) (key : String) : Store :=
  let p := getTags s now
  match scavenge (tagsOf p.1) key with
  | none => p.2
  | some m2 => setTagsPlain p.2 m2

/-- `remove`. -/
def remove (s : Store) (now : Nat) (key : String) : Store :=
  _removeFromTag (s.removeItem (_toStorageKey key)) now (_toStorageKey key)

/-- `get`: look up the namespaced key; absent gives `null`; an expired
entry is removed (via the full `remove`, tag scavenging included) and
gives `null`; a valid entry gives its `value` and leaves the store
untouched. -/
def get (s : Store) (now : Nat) (key : String) : Val × Store :=
  match s.getItem (_toStorageKey key) with
  | none => (Val.null, s)
  | some sv =>
    if _validateStorageValue now sv then (sv.value, s)
    else (Val.null, remove s now key)

/-- `exists`: `!!this.get(key)`. -/
def existsFn (s : Store) (now : Nat) (key : String) : Bool × Store :=
  let p := get s now key
  (p.1.truthy, p.2)

/-- `_saveTag`. -/
def _saveTag (s : Store) (now : Nat) (tag : String) (key : String) : Store :=
  let p := getTags s now
  setTagsPlain p.2 (addToTag (tagsOf p.1) tag key)

/-- `set`: write the entry under the namespaced key, then, when the key is
not the system key and `options.tag` is truthy, record the namespaced key
in the tag index. -/
def set (s : Store) (now : Nat) (key : String) (value : Val) (opts : Option CacheOptions) : Store :=
  let options := opts.getD defaultOptions
  let storageKey := _toStorageKey key
  let s1 := s.setItem storageKey (_toStorageValue now value options)
  if !(_isSystemKey key) && truthyStr options.tag then
    _saveTag s1 now (options.tag.getD "") storageKey
  else s1

/-- `removeAll`. -/
def removeAll (s : Store) : Store := s.clear

/-- JS property assignment `result[key] = data` on an object literal:
overwrite in place, or append a new property. -/
def objSet : List (String × Val) → String → Val → List (String × Val)
  | [], key, v => [(key, v)]
  | (k, w) :: rest, key, v =>
    if k = key then (k, v) :: rest else (k, w) :: objSet rest key v

/-- The `forEach` body of `getTagData`: read the entry back through `get`
(note the source de-namespaces the recorded key and `get` re-namespaces
it), and record a truthy result under the de-namespaced key. -/
def tagDataStep (now : Nat) (acc : List (String × Val) × Store) (k : String) :
    List (String × Val) × Store :=
  let q := get acc.2 now (_fromStorageKey k)
  if q.1.truthy then (objSet acc.1 (_fromStorageKey k) q.1, q.2) else (acc.1, q.2)

/-- `getTagData`. -/
def getTagData (s : Store) (now : Nat) (tag : String) : List (String × Val) × Store :=
  let p := getTags s now
  match lookupTag (tagsOf p.1) tag with
  | none => ([], p.2)
  | some ks => ks.foldl (tagDataStep now) ([], p.2)

/-- `removeTag`: on a known tag, remove every listed key directly from the
backend (plain `removeItem`, not `remove`), delete the tag's entry, and
persist the updated index. -/
def removeTag (s : Store) (now : Nat) (tag : String) : Store :=
  let p := getTags s now
  match lookupTag (tagsOf p.1) tag with
  | none => p.2
  | some ks =>
    setTagsPlain (ks.foldl Store.removeItem p.2) (eraseTag (tagsOf p.1) tag)

/-- `CacheStoragesEnum`. -/
inductive CacheStoragesEnum where
  | SESSION_STORAGE : CacheStoragesEnum
  | LOCAL_STORAGE : CacheStoragesEnum
  | MEMORY : CacheStoragesEnum
deriving DecidableEq, Repr

/-- Host-environment facts the concrete backends consult: whether the
session-scoped and the durable media are usable. -/
structure HostEnv where
  sessionEnabled : Bool
  localEnabled : Bool

/-- A constructed backend as far as selection is concerned: its reported
`type()` and what `isEnabled()` returns. -/
structure BackendInst where
  type : CacheStoragesEnum
  enabled : Bool
deriving DecidableEq, Repr

/-- `DEFAULT_STORAGE`. -/
def DEFAULT_STORAGE : CacheStoragesEnum := .SESSION_STORAGE

/-- `DEFAULT_ENABLED_STORAGE`. -/
def DEFAULT_ENABLED_STORAGE : CacheStoragesEnum := .MEMORY

/-- Modelled from the spec: the concrete backend constructors
(`CacheSessionStorage`, `CacheLocalStorage`, `CacheMemoryStorage`) are not
under src/.  Per the spec, each reports its own storage type, `isEnabled`
of the session-scoped and durable media reflects host availability, and
the in-memory backend is the always-available, guaranteed-enabled
fallback. -/
def _initStorage (env : HostEnv) : CacheStoragesEnum → BackendInst
  | .SESSION_STORAGE => { type := .SESSION_STORAGE, enabled := env.sessionEnabled }
  | .LOCAL_STORAGE => { type := .LOCAL_STORAGE, enabled := env.localEnabled }
  | .MEMORY => { type := .MEMORY, enabled := true }

/-- `_validateStorage`, run once by the constructor: absent backend gives
the session-scoped default, then a disabled current backend gives the
in-memory fallback. -/
def _validateStorage (env : HostEnv) (storage : Option BackendInst) : BackendInst :=
  let s1 :=
    match storage with
    | none => _initStorage env DEFAULT_STORAGE
    | some b => b
  if !s1.enabled then _initStorage env DEFAULT_ENABLED_STORAGE else s1

/-! ### Basic facts about the embedding -/

/-- `Number.MAX_VALUE` as a power expression, documenting the numeral. -/
theorem maxValue_eq_pow : maxValue = 2 ^ 1024 - 2 ^ 971 := by norm_num [maxValue]

theorem maxValue_ne_zero : maxValue ≠ 0 := by decide

theorem truthyNum_maxValue : truthyNum (some maxValue) = true := by decide

theorem getItem_setItem_self (s : Store) (k : String) (v : StorageValue) :
    (s.setItem k v).getItem k = some v := by
  simp [Store.getItem, Store.setItem]

theorem getItem_setItem_ne (s : Store) (k k2 : String) (v : StorageValue) (h : k2 ≠ k) :
    (s.setItem k v).getItem k2 = s.getItem k2 := by
  simp [Store.getItem, Store.setItem, h]

theorem getItem_removeItem_self (s : Store) (k : String) :
    (s.removeItem k).getItem k = none := by
  simp [Store.getItem, Store.removeItem]

theorem getItem_removeItem_ne (s : Store) (k k2 : String) (h : k2 ≠ k) :
    (s.removeItem k).getItem k2 = s.getItem k2 := by
  simp [Store.getItem, Store.removeItem, h]

/-- The namespacing map is injective, so distinct caller keys live under
distinct backend keys. -/
theorem toStorageKey_inj {a b : String} (h : _toStorageKey a = _toStorageKey b) : a = b := by
  unfold _toStorageKey at h
  have h2 : (CACHE_PREFIX ++ a).data = (CACHE_PREFIX ++ b).data := congrArg String.data h
  simp only [String.data_append] at h2
  exact String.ext (List.append_cancel_left h2)

theorem toStorageKey_ne_nsTagsKey {k : String} (h : k ≠ _tagsStorageKey) :
    _toStorageKey k ≠ nsTagsKey := fun hc => h (toStorageKey_inj hc)

theorem defaultOptions_tag : defaultOptions.tag = none := rfl

/-- Stored options computed from the default options: the clock is
irrelevant because both default fields are the truthy sentinel. -/
theorem toStorageOptions_default (now : Nat) :
    _toStorageOptions now defaultOptions = defaultStorageOptions := by
  simp [_toStorageOptions, defaultOptions, defaultStorageOptions, truthyNum, maxValue_ne_zero]

/-- Coherence of the unfolded index read: `getTags` is exactly the
general `get` applied at the reserved tag-index key. -/
theorem get_at_tagsStorageKey (s : Store) (now : Nat) :
    get s now _tagsStorageKey = getTags s now := by
  unfold get getTags
  cases hsv : s.getItem nsTagsKey with
  | none => simp [nsTagsKey] at hsv ⊢; simp [hsv]
  | some sv =>
    have : s.getItem (_toStorageKey _tagsStorageKey) = some sv := hsv
    rw [this]
    by_cases hval : _validateStorageValue now sv
    · simp [hsv, hval]
    · simp only [hsv, hval, Bool.false_eq_true, if_false]
      unfold remove _removeFromTag getTags
      rw [show (s.removeItem (_toStorageKey _tagsStorageKey)).getItem nsTagsKey = none from
        getItem_removeItem_self s nsTagsKey]
      simp [tagsOf, scavenge, nsTagsKey]

/-- Coherence of the unfolded index write: the recursive
`this.set(this._tagsStorageKey(), tags)` (no options) performed by the
tag-maintenance helpers is exactly the general `set` applied at the
reserved key. -/
theorem set_at_tagsStorageKey_plain (s : Store) (now : Nat) (m : List (String × List String)) :
    set s now _tagsStorageKey (Val.tags m) none = setTagsPlain s m := by
  simp [set, _isSystemKey, setTagsPlain, _toStorageValue, toStorageOptions_default, nsTagsKey]

theorem getItem_setTagsPlain_self (s : Store) (m : List (String × List String)) :
    (setTagsPlain s m).getItem nsTagsKey =
      some { value := Val.tags m, options := defaultStorageOptions } := by
  simp [setTagsPlain, getItem_setItem_self]

theorem getItem_setTagsPlain_ne (s : Store) (m : List (String × List String)) (k : String)
    (h : k ≠ nsTagsKey) : (setTagsPlain s m).getItem k = s.getItem k := by
  simp [setTagsPlain, getItem_setItem_ne, h]

/-- Reading the index only ever deletes the (expired) index entry: every
other backend key is untouched. -/
theorem getItem_getTags_snd (s : Store) (now : Nat) (k : String) (h : k ≠ nsTagsKey) :
    (getTags s now).2.getItem k = s.getItem k := by
  unfold getTags
  cases hsv : s.getItem nsTagsKey with
  | none => rfl
  | some sv =>
    by_cases hval : _validateStorageValue now sv
    · simp [hval]
    · simp [hval, getItem_removeItem_ne, h]

/-- The tag scavenge writes (if anything) only the index key. -/
theorem getItem_removeFromTag_ne (s : Store) (now : Nat) (key k : String) (h : k ≠ nsTagsKey) :
    (_removeFromTag s now key).getItem k = s.getItem k := by
  unfold _removeFromTag
  cases hsc : scavenge (tagsOf (getTags s now).1) key with
  | none => simp only [hsc]; exact getItem_getTags_snd s now k h
  | some m2 =>
    simp only [hsc]
    rw [getItem_setTagsPlain_ne _ _ _ h]
    exact getItem_getTags_snd s now k h

/-- `_saveTag` writes only the index key. -/
theorem getItem_saveTag_ne (s : Store) (now : Nat) (t key k : String) (h : k ≠ nsTagsKey) :
    (_saveTag s now t key).getItem k = s.getItem k := by
  unfold _saveTag
  rw [getItem_setTagsPlain_ne _ _ _ h]
  exact getItem_getTags_snd s now k h

/-- After `remove`, the namespaced entry is gone — also when the removed
key is the index key itself (the scavenge then reads an empty index and
does not re-create it). -/
theorem getItem_remove_self (s : Store) (now : Nat) (key : String) :
    (remove s now key).getItem (_toStorageKey key) = none := by
  unfold remove
  by_cases hk : _toStorageKey key = nsTagsKey
  · unfold _removeFromTag getTags
    rw [hk, getItem_removeItem_self]
    simp [tagsOf, scavenge, hk, getItem_removeItem_self]
  · rw [getItem_removeFromTag_ne _ _ _ _ hk]
    exact getItem_removeItem_self s _

/-- `remove` touches nothing but the removed entry and the index key. -/
theorem getItem_remove_ne (s : Store) (now : Nat) (key k : String) (h1 : k ≠ nsTagsKey)
    (h2 : k ≠ _toStorageKey key) : (remove s now key).getItem k = s.getItem k := by
  unfold remove
  rw [getItem_removeFromTag_ne _ _ _ _ h1]
  exact getItem_removeItem_ne s _ k h2

/-! ### The claims -/

/-- C1: for every key `k` and value `v`, `set(k, v)` with no options
followed immediately by `get(k)` returns `v` and leaves the store exactly
as `set` left it: the entry is stored under the namespaced key with the
default never-expiring sentinel, so read-time validation passes.  (The
only proviso is that the clock reading is below `Number.MAX_VALUE`,
which holds of every real epoch timestamp.) -/
theorem set_get_round_trip (s : Store) (now : Nat) (k : String) (v : Val)
    (h : now < maxValue) :
    get (set s now k v none) now k = (v, set s now k v none) := by
  have hset : set s now k v none =
      s.setItem (_toStorageKey k) { value := v, options := defaultStorageOptions } := by
    simp [set, defaultOptions_tag, truthyStr, _toStorageValue, toStorageOptions_default]
  rw [hset]
  unfold get
  rw [getItem_setItem_self]
  simp [_validateStorageValue, defaultStorageOptions, h]

/-- C1 witness: a concrete round trip at time 0. -/
theorem set_get_round_trip_witness :
    0 < maxValue ∧
      get (set emptyStore 0 "a" (Val.num 7) none) 0 "a" =
        (Val.num 7, set emptyStore 0 "a" (Val.num 7) none) :=
  ⟨by decide, set_get_round_trip emptyStore 0 "a" (Val.num 7) (by decide)⟩

/-- C2 counterexample: calling `set` at time 5 with `expires` given as
the epoch timestamp 0 and `maxAge` given as 100 stores the expiration
`now + maxAge * 1000 = 100005`, not the given `expires` verbatim: the
code tests JS truthiness of the field, not its presence, so the claim as
stated fails at `expires = 0`. -/
theorem set_expires_zero_cex :
    (set emptyStore 5 "k" (Val.num 1)
        (some { expires := some 0, maxAge := some 100 })).getItem (_toStorageKey "k") =
      some { value := Val.num 1, options := { expires := 100005, maxAge := 100 } } ∧
    (100005 : Nat) ≠ 0 :=
  ⟨by decide, by decide⟩

/-- C2 (amended): the stored expiration is resolved in priority order on
the truthy (given and nonzero) fields: a given nonzero `expires` is used
verbatim, ignoring `maxAge`; else a given nonzero `maxAge` yields
`now + maxAge * 1000`; else — including when the given fields are zero —
the maximal never sentinel.  The stored `maxAge` is the given nonzero
`maxAge` or the sentinel. -/
theorem set_stored_expiration (s : Store) (now : Nat) (k : String) (v : Val) (o : CacheOptions) :
    (set s now k v (some o)).getItem (_toStorageKey k) =
      some { value := v
           , options :=
             { expires :=
                 match o.expires, o.maxAge with
                 | some e, some a =>
                   if e = 0 then (if a = 0 then maxValue else now + a * 1000) else e
                 | some e, none => if e = 0 then maxValue else e
                 | none, some a => if a = 0 then maxValue else now + a * 1000
                 | none, none => maxValue
             , maxAge :=
                 match o.maxAge with
                 | some a => if a = 0 then maxValue else a
                 | none => maxValue } } := by
  have hne : (set s now k v (some o)).getItem (_toStorageKey k) =
      some (_toStorageValue now v o) := by
    unfold set
    by_cases hsys : _isSystemKey k
    · simp [hsys, getItem_setItem_self]
    · by_cases htag : truthyStr o.tag
      · have hkne : _toStorageKey k ≠ nsTagsKey := by
          refine toStorageKey_ne_nsTagsKey ?_
          simpa [_isSystemKey] using hsys
        simp only [Option.getD_some, hsys, htag, Bool.not_false, Bool.and_true,
          Bool.true_and, if_true]
        rw [getItem_saveTag_ne _ _ _ _ _ hkne]
        exact getItem_setItem_self _ _ _
      · simp [hsys, htag, getItem_setItem_self]
  rw [hne]
  unfold _toStorageValue _toStorageOptions
  rcases he : o.expires with _ | e <;> rcases ha : o.maxAge with _ | a
  · simp [he, ha, truthyNum]
  · by_cases h0 : a = 0 <;> simp [he, ha, truthyNum, h0, bne_iff_ne]
  · by_cases he0 : e = 0 <;> simp [he, ha, truthyNum, he0, bne_iff_ne]
  · by_cases he0 : e = 0 <;> by_cases h0 : a = 0 <;>
      simp [he, ha, truthyNum, he0, h0, bne_iff_ne]

/-- C3: when the namespaced entry is present, `get` returns the stored
value exactly when the stored expiration is strictly in the future, and
otherwise removes the entry through the full `remove` (tag scavenging
included) and returns the absent result.  In particular `set(k, v,
(maxAge 1))` followed by `get(k)` two seconds later is absent, and a
subsequent `exists(k)` on the resulting store is false. -/
theorem get_lazy_expiration :
    (∀ (s : Store) (now : Nat) (k : String) (sv : StorageValue),
        s.getItem (_toStorageKey k) = some sv →
        get s now k =
          if now < sv.options.expires then (sv.value, s) else (Val.null, remove s now k)) ∧
    (∀ (s : Store) (t0 : Nat) (k : String) (v : Val),
        (get (set s t0 k v (some { maxAge := some 1 })) (t0 + 2000) k).1 = Val.null ∧
        (existsFn (get (set s t0 k v (some { maxAge := some 1 })) (t0 + 2000) k).2
            (t0 + 2000) k).1 = false) := by
  constructor
  · intro s now k sv hmem
    unfold get
    rw [hmem]
    by_cases h : now < sv.options.expires
    · simp [_validateStorageValue, h]
    · simp [_validateStorageValue, h]
  · intro s t0 k v
    have hentry : (set s t0 k v (some { maxAge := some 1 })).getItem (_toStorageKey k) =
        some { value := v, options := { expires := t0 + 1 * 1000, maxAge := 1 } } := by
      simp [set, truthyStr, _toStorageValue, _toStorageOptions, truthyNum, getItem_setItem_self]
    have hlt : ¬ (t0 + 2000 < t0 + 1 * 1000) := by omega
    have hget : get (set s t0 k v (some { maxAge := some 1 })) (t0 + 2000) k =
        (Val.null, remove (set s t0 k v (some { maxAge := some 1 })) (t0 + 2000) k) := by
      unfold get
      rw [hentry]
      simp [_validateStorageValue, hlt]
    refine ⟨by rw [hget], ?_⟩
    rw [hget]
    unfold existsFn get
    rw [getItem_remove_self]
    rfl

/-- C3 witness: part one applied at a concrete valid entry. -/
theorem get_lazy_expiration_witness :
    get (set emptyStore 0 "a" (Val.num 2) none) 0 "a" =
      if 0 < maxValue then (Val.num 2, set emptyStore 0 "a" (Val.num 2) none)
      else (Val.null, remove (set emptyStore 0 "a" (Val.num 2) none) 0 "a") :=
  get_lazy_expiration.1 _ 0 "a"
    { value := Val.num 2, options := { expires := maxValue, maxAge := maxValue } } (by decide)

/-- C4: backend selection at construction: a disabled supplied backend
gives the in-memory fallback (`DEFAULT_ENABLED_STORAGE`); an absent
backend gives the session-scoped default, which in turn falls back to
in-memory when the session medium is unavailable; an enabled supplied
backend is kept as is; and the in-memory fallback is always enabled. -/
theorem backend_fallback_selection :
    (∀ (env : HostEnv) (b : BackendInst), b.enabled = false →
        _validateStorage env (some b) = _initStorage env DEFAULT_ENABLED_STORAGE ∧
        (_validateStorage env (some b)).type = CacheStoragesEnum.MEMORY) ∧
    (∀ env : HostEnv,
        _validateStorage env none =
          (if env.sessionEnabled then _initStorage env DEFAULT_STORAGE
           else _initStorage env DEFAULT_ENABLED_STORAGE)) ∧
    (∀ (env : HostEnv) (b : BackendInst), b.enabled = true → _validateStorage env (some b) = b) ∧
    (∀ env : HostEnv, (_initStorage env DEFAULT_ENABLED_STORAGE).enabled = true) := by
  refine ⟨?_, ?_, ?_, ?_⟩
  · intro env b hb
    refine ⟨by simp [_validateStorage, hb], ?_⟩
    simp [_validateStorage, hb, _initStorage, DEFAULT_ENABLED_STORAGE]
  · intro env
    by_cases hs : env.sessionEnabled <;>
      simp [_validateStorage, _initStorage, DEFAULT_STORAGE, DEFAULT_ENABLED_STORAGE, hs]
  · intro env b hb
    simp [_validateStorage, hb]
  · intro env
    simp [_initStorage, DEFAULT_ENABLED_STORAGE]

/-- C4 witness: a backend that reports disabled ends up replaced by the
in-memory backend. -/
theorem backend_fallback_selection_witness :
    (_validateStorage { sessionEnabled := true, localEnabled := true }
        (some { type := CacheStoragesEnum.SESSION_STORAGE, enabled := false })).type =
      CacheStoragesEnum.MEMORY :=
  (backend_fallback_selection.1 { sessionEnabled := true, localEnabled := true }
    { type := CacheStoragesEnum.SESSION_STORAGE, enabled := false } rfl).2

/-- A tagged, non-system `set` call is the entry write followed by the
tag-index maintenance. -/
theorem set_tagged_eq (s : Store) (now : Nat) (k : String) (v : Val) (o : CacheOptions)
    (t : String) (htag : o.tag = some t) (ht : t ≠ "") (hk : k ≠ _tagsStorageKey) :
    set s now k v (some o) =
      _saveTag (s.setItem (_toStorageKey k) (_toStorageValue now v o)) now t
        (_toStorageKey k) := by
  have hsys : _isSystemKey k = false := by simp [_isSystemKey, hk]
  simp [set, hsys, htag, truthyStr, ht]

/-- C5 counterexample: with `options.tag` present but equal to the empty
string, `set` stores the entry and performs no tag maintenance at all —
no index entry is created and the tag's data stays empty — because the
code tests JS truthiness of `options.tag`, not its presence. -/
theorem set_empty_tag_cex :
    (set emptyStore 5 "k" (Val.num 1) (some { tag := some "" })).getItem nsTagsKey = none ∧
    (getTagData (set emptyStore 5 "k" (Val.num 1) (some { tag := some "" })) 5 "").1 = [] :=
  ⟨by decide, by decide⟩

/-- C5 (amended): for every `set(k, v, options)` with `options.tag`
present and non-empty and `k` not the reserved tag-index key, the
namespaced key is appended to that tag's list in the index (the list
being created if the tag is absent, here stated against an intact or
absent stored index) and the index is persisted under the reserved key
with the default untagged never-expiring options; a `set` on the
reserved key itself reduces to the plain entry write (no tag maintenance
ever runs for it); and the persisted index options carry the maximal
sentinel, so the index entry never expires. -/
theorem set_tag_index_maintenance :
    (∀ (s : Store) (now : Nat) (k : String) (v : Val) (o : CacheOptions) (t : String)
        (m : List (String × List String)) (io : StorageOptions),
        o.tag = some t → t ≠ "" → k ≠ _tagsStorageKey →
        s.getItem nsTagsKey = some { value := Val.tags m, options := io } →
        now < io.expires →
        (set s now k v (some o)).getItem nsTagsKey =
          some { value := Val.tags (addToTag m t (_toStorageKey k)),
                 options := defaultStorageOptions }) ∧
    (∀ (s : Store) (now : Nat) (k : String) (v : Val) (o : CacheOptions) (t : String),
        o.tag = some t → t ≠ "" → k ≠ _tagsStorageKey →
        s.getItem nsTagsKey = none →
        (set s now k v (some o)).getItem nsTagsKey =
          some { value := Val.tags [(t, [_toStorageKey k])],
                 options := defaultStorageOptions }) ∧
    (∀ (s : Store) (now : Nat) (v : Val) (opts : Option CacheOptions),
        set s now _tagsStorageKey v opts =
          Store.setItem s nsTagsKey (_toStorageValue now v (opts.getD defaultOptions))) ∧
    defaultStorageOptions.expires = maxValue := by
  refine ⟨?_, ?_, ?_, rfl⟩
  · intro s now k v o t m io htag ht hk hidx hval
    have hkne : _toStorageKey k ≠ nsTagsKey := toStorageKey_ne_nsTagsKey hk
    rw [set_tagged_eq s now k v o t htag ht hk]
    unfold _saveTag getTags
    rw [getItem_setItem_ne _ _ _ _ (Ne.symm hkne), hidx]
    simp [_validateStorageValue, hval, tagsOf, getItem_setTagsPlain_self]
  · intro s now k v o t htag ht hk hidx
    have hkne : _toStorageKey k ≠ nsTagsKey := toStorageKey_ne_nsTagsKey hk
    rw [set_tagged_eq s now k v o t htag ht hk]
    unfold _saveTag getTags
    rw [getItem_setItem_ne _ _ _ _ (Ne.symm hkne), hidx]
    simp [tagsOf, addToTag, getItem_setTagsPlain_self]
  · intro s now v opts
    simp [set, _isSystemKey, nsTagsKey]

/-- C5 witness: a tagged write into an empty store creates the tag list
and persists the never-expiring index. -/
theorem set_tag_index_maintenance_witness :
    (set emptyStore 5 "a" (Val.num 1) (some { tag := some "g" })).getItem nsTagsKey =
      some { value := Val.tags [("g", [_toStorageKey "a"])],
             options := defaultStorageOptions } :=
  set_tag_index_maintenance.2.1 emptyStore 5 "a" (Val.num 1) { tag := some "g" } "g"
    rfl (by decide) (by decide) rfl

/-- The amended C6 reading of the per-tag collection, against a fixed
store: for each recorded key, include the stored value under the
de-namespaced key when the entry is present, unexpired and its value
truthy; skip the key otherwise (absent, expired, or falsy value). -/
def tagDataPure (s : Store) (now : Nat) : List (String × Val) → List String → List (String × Val)
  | acc, [] => acc
  | acc, k :: ks =>
    tagDataPure s now
      (match s.getItem k with
       | some sv =>
         if _validateStorageValue now sv && sv.value.truthy then
           objSet acc (_fromStorageKey k) sv.value
         else acc
       | none => acc) ks

/-- On keys that are namespaced and bound to valid entries, the stateful
`getTagData` fold neither mutates the store nor differs from the pure
collection. -/
theorem tagDataStep_fold_pure (s : Store) (now : Nat) :
    ∀ (ks : List String) (acc : List (String × Val)),
      (∀ k ∈ ks, (∃ sv, s.getItem k = some sv ∧ now < sv.options.expires) ∧
          _toStorageKey (_fromStorageKey k) = k) →
      ks.foldl (tagDataStep now) (acc, s) = (tagDataPure s now acc ks, s) := by
  intro ks
  induction ks with
  | nil => intro acc _; simp [tagDataPure]
  | cons k ks ih =>
    intro acc H
    obtain ⟨⟨sv, hsv, hval⟩, hkey⟩ := H k (by simp)
    have Htail : ∀ k2 ∈ ks, (∃ sv2, s.getItem k2 = some sv2 ∧ now < sv2.options.expires) ∧
        _toStorageKey (_fromStorageKey k2) = k2 := fun k2 hk2 => H k2 (by simp [hk2])
    have hq : get s now (_fromStorageKey k) = (sv.value, s) := by
      unfold get
      rw [hkey, hsv]
      simp [_validateStorageValue, hval]
    by_cases ht : sv.value.truthy
    · have hstep : tagDataStep now (acc, s) k = (objSet acc (_fromStorageKey k) sv.value, s) := by
        simp [tagDataStep, hq, ht]
      have hpure : tagDataPure s now acc (k :: ks) =
          tagDataPure s now (objSet acc (_fromStorageKey k) sv.value) ks := by
        simp [tagDataPure, hsv, _validateStorageValue, hval, ht]
      rw [List.foldl_cons, hstep, hpure]
      exact ih _ Htail
    · have hstep : tagDataStep now (acc, s) k = (acc, s) := by
        simp [tagDataStep, hq, ht]
      have hpure : tagDataPure s now acc (k :: ks) = tagDataPure s now acc ks := by
        simp [tagDataPure, hsv, _validateStorageValue, hval, ht]
      rw [List.foldl_cons, hstep, hpure]
      exact ih _ Htail

/-- The include-decision of the per-tag collection against a fixed
store: the stored value when the entry is present, unexpired and truthy;
nothing when the key is absent, expired or falsy. -/
def collectVal (s : Store) (now : Nat) (k : String) : Option Val :=
  match s.getItem k with
  | some sv => if _validateStorageValue now sv && sv.value.truthy then some sv.value else none
  | none => none

/-- The stateful `getTagData` fold computes, in its first component, the
pure collection against the starting store, assuming only that the
recorded keys are namespaced and distinct from the index key: a valid
read leaves the store unchanged, an absent read is skipped, and an
expired read removes that entry (and rewrites the index) without
touching any other recorded entry, so later reads still see what the
starting store held.  The second hypothesis is the invariant: the
current store agrees with the starting one on every remaining key,
except on keys already removed, which the starting store would skip
anyway. -/
theorem tagDataStep_fold_fst (s : Store) (now : Nat) :
    ∀ (ks : List String) (acc : List (String × Val)) (s2 : Store),
      (∀ k ∈ ks, _toStorageKey (_fromStorageKey k) = k ∧ k ≠ nsTagsKey) →
      (∀ k ∈ ks, s2.getItem k = s.getItem k ∨
          (s2.getItem k = none ∧ collectVal s now k = none)) →
      (ks.foldl (tagDataStep now) (acc, s2)).1 = tagDataPure s now acc ks := by
  intro ks
  induction ks with
  | nil => intro acc s2 _ _; simp [tagDataPure]
  | cons k0 ks ih =>
    intro acc s2 H R
    obtain ⟨hkey, hkne⟩ := H k0 (by simp)
    have Htail : ∀ k ∈ ks, _toStorageKey (_fromStorageKey k) = k ∧ k ≠ nsTagsKey :=
      fun k hk => H k (by simp [hk])
    rw [List.foldl_cons]
    rcases R k0 (by simp) with hr | ⟨hr, hcv⟩
    · cases hs : s.getItem k0 with
      | none =>
        have hq : get s2 now (_fromStorageKey k0) = (Val.null, s2) := by
          unfold get
          rw [hkey, hr, hs]
        have hstep : tagDataStep now (acc, s2) k0 = (acc, s2) := by
          simp [tagDataStep, hq, Val.truthy]
        have hpure : tagDataPure s now acc (k0 :: ks) = tagDataPure s now acc ks := by
          simp [tagDataPure, hs]
        rw [hstep, hpure]
        exact ih acc s2 Htail (fun k hk => R k (by simp [hk]))
      | some sv =>
        by_cases hval : now < sv.options.expires
        · have hq : get s2 now (_fromStorageKey k0) = (sv.value, s2) := by
            unfold get
            rw [hkey, hr, hs]
            simp [_validateStorageValue, hval]
          by_cases ht : sv.value.truthy
          · have hstep : tagDataStep now (acc, s2) k0 =
                (objSet acc (_fromStorageKey k0) sv.value, s2) := by
              simp [tagDataStep, hq, ht]
            have hpure : tagDataPure s now acc (k0 :: ks) =
                tagDataPure s now (objSet acc (_fromStorageKey k0) sv.value) ks := by
              simp [tagDataPure, hs, _validateStorageValue, hval, ht]
            rw [hstep, hpure]
            exact ih _ s2 Htail (fun k hk => R k (by simp [hk]))
          · have hstep : tagDataStep now (acc, s2) k0 = (acc, s2) := by
              simp [tagDataStep, hq, ht]
            have hpure : tagDataPure s now acc (k0 :: ks) = tagDataPure s now acc ks := by
              simp [tagDataPure, hs, _validateStorageValue, hval, ht]
            rw [hstep, hpure]
            exact ih acc s2 Htail (fun k hk => R k (by simp [hk]))
        · have hq : get s2 now (_fromStorageKey k0) =
              (Val.null, remove s2 now (_fromStorageKey k0)) := by
            unfold get
            rw [hkey, hr, hs]
            simp [_validateStorageValue, hval]
          have hstep : tagDataStep now (acc, s2) k0 =
              (acc, remove s2 now (_fromStorageKey k0)) := by
            simp [tagDataStep, hq, Val.truthy]
          have hpure : tagDataPure s now acc (k0 :: ks) = tagDataPure s now acc ks := by
            simp [tagDataPure, hs, _validateStorageValue, hval]
          rw [hstep, hpure]
          refine ih acc _ Htail ?_
          intro k hk
          by_cases hkk : k = k0
          · subst hkk
            refine Or.inr ⟨?_, ?_⟩
            · have h0 := getItem_remove_self s2 now (_fromStorageKey k)
              rwa [hkey] at h0
            · simp [collectVal, hs, _validateStorageValue, hval]
          · have h2 : k ≠ _toStorageKey (_fromStorageKey k0) := by
              rw [hkey]; exact hkk
            have hne := getItem_remove_ne s2 now (_fromStorageKey k0) k ((Htail k hk).2) h2
            rcases R k (by simp [hk]) with hrk | ⟨hrk, hcvk⟩
            · exact Or.inl (hne.trans hrk)
            · exact Or.inr ⟨hne.trans hrk, hcvk⟩
    · have hq : get s2 now (_fromStorageKey k0) = (Val.null, s2) := by
        unfold get
        rw [hkey, hr]
      have hstep : tagDataStep now (acc, s2) k0 = (acc, s2) := by
        simp [tagDataStep, hq, Val.truthy]
      have hpure : tagDataPure s now acc (k0 :: ks) = tagDataPure s now acc ks := by
        cases hs : s.getItem k0 with
        | none => simp [tagDataPure, hs]
        | some sv =>
          have hb : (_validateStorageValue now sv && sv.value.truthy) = false := by
            rcases Bool.eq_false_or_eq_true (_validateStorageValue now sv && sv.value.truthy)
              with hb | hb
            · exfalso
              simp [collectVal, hs, hb] at hcv
            · exact hb
          simp [tagDataPure, hs, hb]
      rw [hstep, hpure]
      exact ih acc s2 Htail (fun k hk => R k (by simp [hk]))

/-- The spec's tag-grouping scenario store: two tagged writes under
tag "g" at time 5. -/
def demoG : Store :=
  set (set emptyStore 5 "a" (Val.num 1) (some { tag := some "g" })) 5 "b" (Val.num 2)
    (some { tag := some "g" })

/-- The expiry-skip scenario store: under tag "g", one entry written at
time 10 with maxAge 1 (so expiring at 1010) next to a never-expiring
one. -/
def demoExp : Store :=
  set (set emptyStore 10 "a" (Val.num 1) (some { maxAge := some 1, tag := some "g" })) 10 "b"
    (Val.num 2) (some { tag := some "g" })

/-- C6 counterexample: a stored value 0 under tag "g" is present and
unexpired — `get` returns it and performs no removal — yet
`getTagData("g")` omits the key, because the code skips falsy values,
not merely absent ones. -/
theorem getTagData_falsy_value_cex :
    (get (set emptyStore 5 "a" (Val.num 0) (some { tag := some "g" })) 5 "a").1 = Val.num 0 ∧
    (get (set emptyStore 5 "a" (Val.num 0) (some { tag := some "g" })) 5 "a").2 =
      set emptyStore 5 "a" (Val.num 0) (some { tag := some "g" }) ∧
    (getTagData (set emptyStore 5 "a" (Val.num 0) (some { tag := some "g" })) 5 "g").1 = [] :=
  ⟨by decide, rfl, by decide⟩

/-- C6 (amended): `getTagData` returns the empty mapping when the tag is
unknown to the (intact or absent) index; on a known tag its result
collects, in list order and keyed by the de-namespaced original key,
each recorded entry whose `get` result is truthy, skipping every key
whose value is absent, expired, or falsy — stated generally for recorded
keys that are namespaced and distinct from the index key (which is all
the service ever records), with no assumption on the entries themselves;
when additionally every recorded entry is valid, the whole call leaves
the store untouched; the spec's two-entry example and a concrete
expired-entry skip (an entry written with maxAge 1 and read two seconds
later, still recorded but expired, hence omitted) are included. -/
theorem getTagData_spec :
    (∀ (s : Store) (now : Nat) (t : String) (w : Val),
        getTags s now = (w, s) → lookupTag (tagsOf w) t = none →
        getTagData s now t = ([], s)) ∧
    (∀ (s : Store) (now : Nat) (t : String) (w : Val) (ks : List String),
        getTags s now = (w, s) → lookupTag (tagsOf w) t = some ks →
        (∀ k ∈ ks, _toStorageKey (_fromStorageKey k) = k ∧ k ≠ nsTagsKey) →
        (getTagData s now t).1 = tagDataPure s now [] ks) ∧
    (∀ (s : Store) (now : Nat) (t : String) (w : Val) (ks : List String),
        getTags s now = (w, s) → lookupTag (tagsOf w) t = some ks →
        (∀ k ∈ ks, (∃ sv, s.getItem k = some sv ∧ now < sv.options.expires) ∧
            _toStorageKey (_fromStorageKey k) = k) →
        getTagData s now t = (tagDataPure s now [] ks, s)) ∧
    (getTagData demoG 5 "g").1 = [("a", Val.num 1), ("b", Val.num 2)] ∧
    (demoExp.getItem (_toStorageKey "a") =
        some { value := Val.num 1, options := { expires := 1010, maxAge := 1 } } ∧
     (getTagData demoExp 2010 "g").1 = [("b", Val.num 2)]) := by
  refine ⟨?_, ?_, ?_, by decide, by decide, by decide⟩
  · intro s now t w hg hlk
    simp [getTagData, hg, hlk]
  · intro s now t w ks hg hlk H
    simp only [getTagData, hg, hlk]
    exact tagDataStep_fold_fst s now ks [] s H (fun k _ => Or.inl rfl)
  · intro s now t w ks hg hlk H
    simp only [getTagData, hg, hlk]
    exact tagDataStep_fold_pure s now ks [] H

/-- C6 witness: the quantified parts applied to the scenario stores —
the general result part at the store holding an expired recorded
entry. -/
theorem getTagData_spec_witness :
    getTagData demoG 5 "zz" = ([], demoG) ∧
    getTagData demoG 5 "g" =
      (tagDataPure demoG 5 [] [_toStorageKey "a", _toStorageKey "b"], demoG) ∧
    (getTagData demoExp 2010 "g").1 =
      tagDataPure demoExp 2010 [] [_toStorageKey "a", _toStorageKey "b"] := by
  refine ⟨?_, ?_, ?_⟩
  · exact getTagData_spec.1 demoG 5 "zz"
      (Val.tags [("g", [_toStorageKey "a", _toStorageKey "b"])]) rfl (by decide)
  · refine getTagData_spec.2.2.1 demoG 5 "g"
      (Val.tags [("g", [_toStorageKey "a", _toStorageKey "b"])])
      [_toStorageKey "a", _toStorageKey "b"] rfl (by decide) ?_
    intro k hk
    rcases List.mem_cons.mp hk with rfl | hk2
    · exact ⟨⟨{ value := Val.num 1, options := defaultStorageOptions }, by decide, by decide⟩,
        by decide⟩
    · rcases List.mem_cons.mp hk2 with rfl | hk3
      · exact ⟨⟨{ value := Val.num 2, options := defaultStorageOptions }, by decide, by decide⟩,
          by decide⟩
      · exact absurd hk3 (List.not_mem_nil k)
  · refine getTagData_spec.2.1 demoExp 2010 "g"
      (Val.tags [("g", [_toStorageKey "a", _toStorageKey "b"])])
      [_toStorageKey "a", _toStorageKey "b"] rfl (by decide) ?_
    intro k hk
    rcases List.mem_cons.mp hk with rfl | hk2
    · exact ⟨by decide, by decide⟩
    · rcases List.mem_cons.mp hk2 with rfl | hk3
      · exact ⟨by decide, by decide⟩
      · exact absurd hk3 (List.not_mem_nil k)

theorem getItem_foldl_removeItem (ks : List String) (s : Store) (k : String) :
    (ks.foldl Store.removeItem s).getItem k = if k ∈ ks then none else s.getItem k := by
  induction ks generalizing s with
  | nil => simp
  | cons x xs ih =>
    rw [List.foldl_cons, ih]
    by_cases hx : k = x
    · subst hx
      by_cases hm : k ∈ xs <;> simp [hm, getItem_removeItem_self]
    · by_cases hm : k ∈ xs <;> simp [hm, hx, getItem_removeItem_ne _ _ _ hx]

theorem lookupTag_eq_none_of_not_mem (m : List (String × List String)) (t : String)
    (h : t ∉ m.map Prod.fst) : lookupTag m t = none := by
  induction m with
  | nil => rfl
  | cons p rest ih =>
    obtain ⟨t1, l1⟩ := p
    simp only [List.map_cons, List.mem_cons] at h
    push_neg at h
    simp only [lookupTag, if_neg (Ne.symm h.1)]
    exact ih h.2

/-- Deleting a tag from an index whose tag names are distinct (as JS
object properties always are) makes it unknown. -/
theorem lookupTag_eraseTag (m : List (String × List String)) (t : String)
    (hnd : (m.map Prod.fst).Nodup) : lookupTag (eraseTag m t) t = none := by
  induction m with
  | nil => rfl
  | cons p rest ih =>
    obtain ⟨t1, l1⟩ := p
    simp only [List.map_cons, List.nodup_cons] at hnd
    by_cases h1 : t1 = t
    · subst h1
      simp only [eraseTag, if_pos rfl]
      exact lookupTag_eq_none_of_not_mem rest t1 hnd.1
    · simp only [eraseTag, if_neg h1, lookupTag, if_neg h1]
      exact ih hnd.2

/-- C7: `removeTag` is a no-op on a tag unknown to the (intact or
absent) index; on a known tag it removes every listed key directly from
the backend (plain `removeItem`, bypassing per-key scavenging), deletes
the tag's entry from the index and persists the updated index under the
reserved key, after which every listed entry is gone and `getTagData` of
the tag is empty; the spec's concrete scenario is included. -/
theorem removeTag_spec :
    (∀ (s : Store) (now : Nat) (t : String) (w : Val),
        getTags s now = (w, s) → lookupTag (tagsOf w) t = none →
        removeTag s now t = s) ∧
    (∀ (s : Store) (now : Nat) (t : String) (w : Val) (ks : List String),
        getTags s now = (w, s) → lookupTag (tagsOf w) t = some ks →
        removeTag s now t =
          setTagsPlain (ks.foldl Store.removeItem s) (eraseTag (tagsOf w) t) ∧
        (∀ k ∈ ks, k ≠ nsTagsKey → (removeTag s now t).getItem k = none) ∧
        (removeTag s now t).getItem nsTagsKey =
          some { value := Val.tags (eraseTag (tagsOf w) t),
                 options := defaultStorageOptions } ∧
        (now < maxValue → ((tagsOf w).map Prod.fst).Nodup →
          getTagData (removeTag s now t) now t = ([], removeTag s now t))) ∧
    ((get (removeTag demoG 5 "g") 5 "a").1 = Val.null ∧
     (get (removeTag demoG 5 "g") 5 "b").1 = Val.null ∧
     (getTagData (removeTag demoG 5 "g") 5 "g").1 = []) := by
  refine ⟨?_, ?_, by decide, by decide, by decide⟩
  · intro s now t w hg hlk
    simp [removeTag, hg, hlk]
  · intro s now t w ks hg hlk
    have heq : removeTag s now t =
        setTagsPlain (ks.foldl Store.removeItem s) (eraseTag (tagsOf w) t) := by
      simp [removeTag, hg, hlk]
    refine ⟨heq, ?_, ?_, ?_⟩
    · intro k hk hkne
      rw [heq, getItem_setTagsPlain_ne _ _ _ hkne, getItem_foldl_removeItem]
      simp [hk]
    · rw [heq]
      exact getItem_setTagsPlain_self _ _
    · intro hnow hnd
      have hg2 : getTags (removeTag s now t) now =
          (Val.tags (eraseTag (tagsOf w) t), removeTag s now t) := by
        unfold getTags
        rw [show (removeTag s now t).getItem nsTagsKey =
            some { value := Val.tags (eraseTag (tagsOf w) t),
                   options := defaultStorageOptions } from by
          rw [heq]; exact getItem_setTagsPlain_self _ _]
        simp [_validateStorageValue, defaultStorageOptions, hnow]
      have hlk2 : lookupTag (tagsOf (Val.tags (eraseTag (tagsOf w) t))) t = none :=
        lookupTag_eraseTag (tagsOf w) t hnd
      simp [getTagData, hg2, hlk2]

/-- C7 witness: the known-tag part applied to the scenario store. -/
theorem removeTag_spec_witness :
    removeTag demoG 5 "g" =
      setTagsPlain ([_toStorageKey "a", _toStorageKey "b"].foldl Store.removeItem demoG)
        (eraseTag (tagsOf (Val.tags [("g", [_toStorageKey "a", _toStorageKey "b"])])) "g") :=
  (removeTag_spec.2.1 demoG 5 "g" (Val.tags [("g", [_toStorageKey "a", _toStorageKey "b"])])
    [_toStorageKey "a", _toStorageKey "b"] rfl (by decide)).1

/-- A backend prepared with one entry under key "x" and a two-tag index
in which both tag lists record that same namespaced key. -/
def twoTagStore : Store :=
  Store.setItem
    (Store.setItem emptyStore (_toStorageKey "x")
      { value := Val.num 7, options := defaultStorageOptions })
    nsTagsKey
    { value := Val.tags [("t1", [_toStorageKey "x"]), ("t2", [_toStorageKey "x"])],
      options := defaultStorageOptions }

/-- C8: `remove` deletes the namespaced entry unconditionally; the index
scavenge then either leaves the index untouched (no tag lists the key)
or rewrites it with exactly the first matching tag's list shortened by
the first occurrence and persists it; the scan stops at the first match,
so a key listed under two tags has only the first tag's list updated —
shown generally on the scan and concretely through the full `remove` on
a two-tag store. -/
theorem remove_scavenge_spec :
    (∀ (s : Store) (now : Nat) (k : String),
        (remove s now k).getItem (_toStorageKey k) = none) ∧
    (∀ (s : Store) (now : Nat) (k : String) (w : Val),
        getTags (s.removeItem (_toStorageKey k)) now = (w, s.removeItem (_toStorageKey k)) →
        (scavenge (tagsOf w) (_toStorageKey k) = none →
            remove s now k = s.removeItem (_toStorageKey k)) ∧
        (∀ m2, scavenge (tagsOf w) (_toStorageKey k) = some m2 →
            remove s now k = setTagsPlain (s.removeItem (_toStorageKey k)) m2)) ∧
    (∀ (t1 : String) (l1 : List String) (t2 : String) (l2 : List String)
        (rest : List (String × List String)) (k : String), k ∈ l1 →
        scavenge ((t1, l1) :: (t2, l2) :: rest) k =
          some ((t1, removeFirstOcc l1 k) :: (t2, l2) :: rest)) ∧
    ((remove twoTagStore 5 "x").getItem nsTagsKey =
        some { value := Val.tags [("t1", []), ("t2", [_toStorageKey "x"])],
               options := defaultStorageOptions } ∧
     (remove twoTagStore 5 "x").getItem (_toStorageKey "x") = none) := by
  refine ⟨getItem_remove_self, ?_, ?_, by decide, by decide⟩
  · intro s now k w hg
    constructor
    · intro hsc
      simp [remove, _removeFromTag, hg, hsc]
    · intro m2 hsc
      simp [remove, _removeFromTag, hg, hsc]
  · intro t1 l1 t2 l2 rest k hk
    have hc : l1.contains k = true := by
      simpa [List.contains] using List.elem_iff.mpr hk
    simp only [scavenge]
    rw [if_pos hc]

/-- C8 witness: the scavenge equation applied to the two-tag store. -/
theorem remove_scavenge_spec_witness :
    remove twoTagStore 5 "x" =
      setTagsPlain (twoTagStore.removeItem (_toStorageKey "x"))
        [("t1", []), ("t2", [_toStorageKey "x"])] :=
  (remove_scavenge_spec.2.1 twoTagStore 5 "x"
      (Val.tags [("t1", [_toStorageKey "x"]), ("t2", [_toStorageKey "x"])]) rfl).2
    [("t1", []), ("t2", [_toStorageKey "x"])] (by decide)

/-- C9: `exists` is precisely the JS truthiness of `get`, so a stored
value that is itself falsy (false, "" or 0) makes `exists` false, just
as an absent key does — the two cases are indistinguishable through
`exists`. -/
theorem exists_truthy_spec :
    (∀ (s : Store) (now : Nat) (k : String),
        (existsFn s now k).1 = (get s now k).1.truthy) ∧
    (∀ (s : Store) (now : Nat) (k : String) (v : Val),
        v.truthy = false → now < maxValue →
        (existsFn (set s now k v none) now k).1 = false) ∧
    (∀ (s : Store) (now : Nat) (k : String),
        s.getItem (_toStorageKey k) = none → (existsFn s now k).1 = false) := by
  refine ⟨fun s now k => rfl, ?_, ?_⟩
  · intro s now k v hv hnow
    have hset : set s now k v none =
        s.setItem (_toStorageKey k) { value := v, options := defaultStorageOptions } := by
      simp [set, defaultOptions_tag, truthyStr, _toStorageValue, toStorageOptions_default]
    unfold existsFn get
    rw [hset, getItem_setItem_self]
    simp [_validateStorageValue, defaultStorageOptions, hnow, hv]
  · intro s now k h
    unfold existsFn get
    rw [h]
    rfl

/-- C9 witness: a stored boolean false is reported as non-existent. -/
theorem exists_truthy_spec_witness :
    (existsFn (set emptyStore 0 "f" (Val.bool false) none) 0 "f").1 = false :=
  exists_truthy_spec.2.1 emptyStore 0 "f" (Val.bool false) rfl (by decide)

/-- C10: on a present, unexpired entry `get` performs no write — the
returned store is the input store, tag index included; on an absent
entry likewise; and whenever `get` does change the store, the looked-up
entry existed and was expired. -/
theorem get_frame_effect :
    (∀ (s : Store) (now : Nat) (k : String) (sv : StorageValue),
        s.getItem (_toStorageKey k) = some sv → now < sv.options.expires →
        (get s now k).2 = s) ∧
    (∀ (s : Store) (now : Nat) (k : String),
        s.getItem (_toStorageKey k) = none → (get s now k).2 = s) ∧
    (∀ (s : Store) (now : Nat) (k : String),
        (get s now k).2 ≠ s →
        ∃ sv, s.getItem (_toStorageKey k) = some sv ∧ sv.options.expires ≤ now) := by
  refine ⟨?_, ?_, ?_⟩
  · intro s now k sv h hval
    unfold get
    rw [h]
    simp [_validateStorageValue, hval]
  · intro s now k h
    unfold get
    rw [h]
  · intro s now k hne
    cases hx : s.getItem (_toStorageKey k) with
    | none => exact absurd (by unfold get; rw [hx]) hne
    | some sv =>
      by_cases hval : now < sv.options.expires
      · exact absurd (by unfold get; rw [hx]; simp [_validateStorageValue, hval]) hne
      · exact ⟨sv, rfl, by omega⟩

/-- C10 witness: the valid-entry frame applied at a concrete store. -/
theorem get_frame_effect_witness :
    (get (set emptyStore 0 "a" (Val.num 1) none) 0 "a").2 =
      set emptyStore 0 "a" (Val.num 1) none :=
  get_frame_effect.1 (set emptyStore 0 "a" (Val.num 1) none) 0 "a"
    { value := Val.num 1, options := { expires := maxValue, maxAge := maxValue } }
    (by decide) (by decide)

end Ng2Cache
